import Mathlib

/-!
Shallow embedding of `modal_temstapro.py`, the Modal Labs deployment wrapper
for the TemStaPro predictor, together with proofs of the specification's
claims about it.

Modelling conventions:
* Byte strings are `List Nat`.
* A file system is a partial map from path strings to file contents
  (`some` = a regular file with those bytes exists, `none` = no regular file).
* POSIX paths are plain strings; the fragments of `pathlib` the script uses
  (`Path.name`, `Path.parent`, the `/` join with a relative component) are
  embedded below.  `str.upper` / `Path` comparisons are modelled for ASCII,
  which is what all the constants in the script use.
* The external subprocess is an oracle value `CompletedProcess` (its exit
  code and captured stdout/stderr); the state of the remote scratch
  directory after the subprocess ran is an oracle `FileMap`, and the plot
  directory subtree is an oracle association of relative paths to entries
  (the model of `Path.rglob`).
-/

namespace TemStaPro

/-- Byte strings (contents of files, values of `bytes` in the script). -/
abbrev Bytes := List Nat

/-- A file system fragment: path string to `some` contents when a regular
file exists there, `none` otherwise. -/
abbrev FileMap := String → Option Bytes

/-- ASCII uppercasing, the fragment of `str.upper` the script relies on
(all four known `GPU` names are ASCII).  Defined over the character list so
that it computes by kernel reduction. -/
def strUpper (s : String) : String :=
  ⟨s.data.map Char.toUpper⟩

/-- Python truthiness of an `Optional[str]` value: `None` and the empty
string are falsy, every other string is truthy. -/
def strOptTruthy : Option String → Bool
  | none => false
  | some s => !s.isEmpty

/-- Split a character list at every occurrence of a separator character,
the way `str.split(sep)` treats a one-character separator.  Defined by
structural recursion so that it computes by kernel reduction. -/
def splitChar (sep : Char) : List Char → List (List Char)
  | [] => [[]]
  | c :: rest =>
    let r := splitChar sep rest
    if c = sep then [] :: r
    else (c :: r.headD []) :: r.tail

/-- Components of a POSIX path as `pathlib` parses them: split on `/`,
dropping empty components and `.` components. -/
def pathParts (p : String) : List String :=
  ((splitChar '/' p.data).map (fun l => (⟨l⟩ : String))).filter
    (fun c => (c != "") && (c != "."))

/-- Embedding of `pathlib.PurePosixPath(p).name`: the final path component,
or the empty string when there is none. -/
def pathName (p : String) : String :=
  (pathParts p).getLastD ""

/-- Whether a path string is absolute (starts with a slash). -/
def isAbsolute (p : String) : Bool :=
  p.data.head? == some '/'

/-- Rebuild a path string from its absoluteness flag and components, the way
`str(PurePosixPath(...))` renders it (`.` for an empty relative path). -/
def renderPath (abs : Bool) (parts : List String) : String :=
  if parts.isEmpty then (if abs then "/" else ".")
  else (if abs then "/" else "") ++ String.intercalate "/" parts

/-- Embedding of `pathlib.PurePosixPath(p).parent`. -/
def parentPath (p : String) : String :=
  renderPath (isAbsolute p) (pathParts p).dropLast

/-- Embedding of the `/` join of a path with a relative component, as the
script uses it (`base / name`). -/
def joinPath (a b : String) : String :=
  a ++ "/" ++ b

/-- `HERE` is mapped into the image at `REMOTE_REPO_PATH`; the remote code
only ever sees the latter. -/
def REMOTE_REPO_PATH : String := "/workspace/TemStaPro"

/-- Scratch directory recreated for every remote execution. -/
def REMOTE_FASTA_DIR : String := "/tmp/temstapro"

/-- Root of the Hugging Face cache volume. -/
def HF_CACHE_ROOT : String := "/cache/hf"

/-- Root of the embeddings cache volume. -/
def EMBEDDINGS_CACHE_ROOT : String := "/cache/embeddings"

/-- Directory holding the ProtTrans weights inside the HF cache. -/
def PROTTRANS_DIR : String := joinPath HF_CACHE_ROOT "prottrans"

/-- The GPU classes the script can request from Modal. -/
inductive GpuType
  | A10G
  | A100
  | H100
  | L4
deriving DecidableEq, Repr

/-- Embedding of `_gpu_from_env`: translate the `GPU` environment variable
(`none` = unset) into a Modal GPU config, uppercasing the value first. -/
def gpu_from_env (gpuEnv : Option String) : Option GpuType :=
  let g := strUpper (gpuEnv.getD "")
  if g = "A10G" then some GpuType.A10G
  else if g = "A100" then some GpuType.A100
  else if g = "H100" then some GpuType.H100
  else if g = "L4" then some GpuType.L4
  else none

/-- The result of `subprocess.run(..., capture_output=True, text=True)`:
exit code and fully captured stdout/stderr. -/
structure CompletedProcess where
  returncode : Int
  stdout : String
  stderr : String
deriving DecidableEq, Repr

/-- The keyword arguments of the remote worker `run_temstapro`. -/
structure RunArgs where
  fasta_bytes : Bytes
  fasta_name : String
  more_thresholds : Bool
  portion_size : Int
  segment_size : Int
  window_size_predictions : Int
  curve_smoothening : Bool
  include_plots : Bool
  mean_output_name : Option String
  per_res_output_name : Option String
  per_segment_output_name : Option String
deriving DecidableEq, Repr

/-- Remote path the input bytes are staged at (`_prepare_workdir`). -/
def input_path (a : RunArgs) : String :=
  joinPath REMOTE_FASTA_DIR a.fasta_name

/-- Remote directory for the requested output files (`_prepare_workdir`). -/
def outputs_path : String :=
  joinPath REMOTE_FASTA_DIR "outputs"

/-- Remote directory the plot files are produced in (`_prepare_workdir`). -/
def plots_path : String :=
  joinPath REMOTE_FASTA_DIR "plots"

/-- Embedding of `outputs_path / mean_output_name if mean_output_name else
None` (a falsy name, that is `None` or the empty string, gives `None`). -/
def mean_output_path (a : RunArgs) : Option String :=
  match a.mean_output_name with
  | none => none
  | some name => if name.isEmpty then none else some (joinPath outputs_path name)

/-- Remote path for the per-residue output, when a truthy name was given. -/
def per_res_output_path (a : RunArgs) : Option String :=
  match a.per_res_output_name with
  | none => none
  | some name => if name.isEmpty then none else some (joinPath outputs_path name)

/-- Remote path for the per-segment output, when a truthy name was given. -/
def per_segment_output_path (a : RunArgs) : Option String :=
  match a.per_segment_output_name with
  | none => none
  | some name => if name.isEmpty then none else some (joinPath outputs_path name)

/-- The unconditional head of the command line built by `run_temstapro`. -/
def cmdBase (a : RunArgs) : List String :=
  ["python", joinPath REMOTE_REPO_PATH "temstapro",
   "-f", input_path a,
   "-d", PROTTRANS_DIR,
   "-t", REMOTE_REPO_PATH,
   "-e", EMBEDDINGS_CACHE_ROOT,
   "--portion-size", toString a.portion_size,
   "--segment-size", toString a.segment_size,
   "--window-size-predictions", toString a.window_size_predictions]

/-- Words appended by `if more_thresholds: cmd.append(...)`. -/
def moreThresholdsSeg (a : RunArgs) : List String :=
  if a.more_thresholds then ["--more-thresholds"] else []

/-- Words appended by `if curve_smoothening: cmd.append(...)`. -/
def curveSmootheningSeg (a : RunArgs) : List String :=
  if a.curve_smoothening then ["--curve-smoothening"] else []

/-- Words appended by `if mean_output_path: cmd.extend(...)`. -/
def meanOutputSeg (a : RunArgs) : List String :=
  match mean_output_path a with
  | some p => ["--mean-output", p]
  | none => []

/-- Words appended by `if per_res_output_path: cmd.extend(...)`. -/
def perResOutputSeg (a : RunArgs) : List String :=
  match per_res_output_path a with
  | some p => ["--per-res-output", p]
  | none => []

/-- Words appended by `if per_segment_output_path: cmd.extend(...)`. -/
def perSegmentOutputSeg (a : RunArgs) : List String :=
  match per_segment_output_path a with
  | some p => ["--per-segment-output", p]
  | none => []

/-- Words appended by `if include_plots: cmd.extend(...)`. -/
def plotDirSeg (a : RunArgs) : List String :=
  if a.include_plots then ["--per-residue-plot-dir", plots_path] else []

/-- The full command line `cmd` built by `run_temstapro` (lines 168-198 of
the script): the fixed head followed by each conditional segment in source
order. -/
def cmd (a : RunArgs) : List String :=
  cmdBase a ++ moreThresholdsSeg a ++ curveSmootheningSeg a ++ meanOutputSeg a
    ++ perResOutputSeg a ++ perSegmentOutputSeg a ++ plotDirSeg a

/-- Embedding of `_collect_outputs`: for each output identifier, read the
file when a path was assigned and a file exists there, else record `none`. -/
def _collect_outputs (fs : FileMap) (paths : List (String × Option String)) :
    List (String × Option Bytes) :=
  paths.map (fun kp =>
    match kp.2 with
    | some p => (kp.1, fs p)
    | none => (kp.1, none))

/-- An entry of a directory tree: a regular file with contents, or a
subdirectory (which `is_file()` filters out). -/
inductive FsEntry
  | file (content : Bytes)
  | dir
deriving DecidableEq, Repr

/-- Embedding of `_gather_plot_files`.  The plot directory is modelled as
`none` when it does not exist, and otherwise as the association of the
relative path of every entry below it to that entry (the ground truth that
`rglob` enumerates).  The function sorts the enumeration (Python sorts the
full paths, which share the `plot_dir` prefix, so this is the same order),
keeps regular files, and returns relative path with contents. -/
def _gather_plot_files (tree : Option (List (String × FsEntry))) :
    List (String × Bytes) :=
  match tree with
  | none => []
  | some entries =>
    (entries.mergeSort (fun x y => decide (x.1 ≤ y.1))).filterMap
      (fun e =>
        match e.2 with
        | FsEntry.file content => some (e.1, content)
        | FsEntry.dir => none)

/-- The value returned by `run_temstapro` on success. -/
structure RunResult where
  stdout : String
  stderr : String
  files : List (String × Option Bytes)
  plots : List (String × Bytes)
deriving DecidableEq, Repr

/-- The message of the `RuntimeError` raised on a nonzero exit code. -/
def errorMessage (completed : CompletedProcess) : String :=
  "TemStaPro execution failed with return code " ++ toString completed.returncode
    ++ "\nSTDOUT:\n" ++ completed.stdout ++ "\nSTDERR:\n" ++ completed.stderr

/-- Embedding of the remote worker `run_temstapro` from the subprocess step
onward: `completed` is the subprocess result, `fs` the state of the remote
file system after the tool ran, and `plotTree` the plot directory subtree.
A nonzero exit code raises (models `raise RuntimeError`); otherwise the
requested outputs and plots are collected into the result dictionary. -/
def run_temstapro (completed : CompletedProcess) (fs : FileMap)
    (plotTree : Option (List (String × FsEntry))) (a : RunArgs) :
    Except String RunResult :=
  if completed.returncode ≠ 0 then
    Except.error (errorMessage completed)
  else
    Except.ok
      { stdout := completed.stdout
        stderr := completed.stderr
        files := _collect_outputs fs
          [("mean", mean_output_path a),
           ("per_res", per_res_output_path a),
           ("per_segment", per_segment_output_path a)]
        plots := if a.include_plots then _gather_plot_files plotTree else [] }

/-- The local file system state the launcher mutates: contents of regular
files, plus the set of directories that exist (as a list). -/
structure LocalFS where
  files : String → Option Bytes
  dirs : List String

/-- The chain of a directory and its ancestors obtained by iterating
`parent` the given number of times. -/
def dirChain : Nat → String → List String
  | 0, d => [d]
  | k + 1, d => d :: dirChain k (parentPath d)

/-- Embedding of `Path(d).mkdir(parents=True, exist_ok=True)`: the directory
and all its ancestors exist afterwards. -/
def mkdirParents (fs : LocalFS) (d : String) : LocalFS :=
  { fs with dirs := dirChain (pathParts d).length d ++ fs.dirs }

/-- Embedding of `Path(p).write_bytes(content)`. -/
def writeFile (fs : LocalFS) (p : String) (content : Bytes) : LocalFS :=
  { fs with files := fun q => if q = p then some content else fs.files q }

/-- Embedding of `_write_optional_file`: write the payload to the requested
path only when the path is truthy and the payload is present, creating the
parent directories first. -/
def _write_optional_file (fs : LocalFS) (output_path : Option String)
    (payload : Option Bytes) : LocalFS :=
  match output_path, payload with
  | some p, some content =>
    if p.isEmpty then fs
    else writeFile (mkdirParents fs (parentPath p)) p content
  | _, _ => fs

/-- The loop body of `_write_plots`: create the parent directories of
`base / relative_path` and write the blob there. -/
def plotWriteStep (d : String) (acc : LocalFS) (rb : String × Bytes) : LocalFS :=
  writeFile (mkdirParents acc (parentPath (joinPath d rb.1))) (joinPath d rb.1) rb.2

/-- Embedding of `_write_plots`: with a truthy plot directory, create it and
then write every `(relative path, blob)` entry under it, creating parent
directories before each write. -/
def _write_plots (fs : LocalFS) (plot_dir : Option String)
    (plots : List (String × Bytes)) : LocalFS :=
  match plot_dir with
  | none => fs
  | some d =>
    if d.isEmpty then fs
    else plots.foldl (plotWriteStep d) (mkdirParents fs d)

/-- The keyword arguments of the local entrypoint `main`, with their
declared defaults. -/
structure MainArgs where
  fasta_path : String
  output_path : Option String := none
  more_thresholds : Bool := false
  per_res_output : Option String := none
  per_segment_output : Option String := none
  plot_dir : Option String := none
  portion_size : Int := 1000
  segment_size : Int := 41
  window_size_predictions : Int := 81
  curve_smoothening : Bool := false
deriving Repr

/-- Embedding of `Path(p).name if p else None`. -/
def optBaseName (p : Option String) : Option String :=
  match p with
  | none => none
  | some s => if s.isEmpty then none else some (pathName s)

/-- The `RunArgs` record `main` sends to `run_temstapro.remote` once the
input file's bytes have been read. -/
def remoteArgs (m : MainArgs) (fasta_bytes : Bytes) : RunArgs :=
  { fasta_bytes := fasta_bytes
    fasta_name := pathName m.fasta_path
    more_thresholds := m.more_thresholds
    portion_size := m.portion_size
    segment_size := m.segment_size
    window_size_predictions := m.window_size_predictions
    curve_smoothening := m.curve_smoothening
    include_plots := strOptTruthy m.plot_dir
    mean_output_name := optBaseName m.output_path
    per_res_output_name := optBaseName m.per_res_output
    per_segment_output_name := optBaseName m.per_segment_output }

/-- Embedding of the validation and remote-call phase of `main` (lines
266-284): fail fast when the input file does not exist, otherwise build the
remote call's arguments from the file's bytes. -/
def mainCall (fs : FileMap) (m : MainArgs) : Except String RunArgs :=
  match fs m.fasta_path with
  | none => Except.error ("FASTA file not found: " ++ m.fasta_path)
  | some fasta_bytes => Except.ok (remoteArgs m fasta_bytes)

/-- The remote-worker calls `main` performs: exactly one when validation
passes, none when it fails. -/
def mainRemoteCalls (fs : FileMap) (m : MainArgs) : List RunArgs :=
  match mainCall fs m with
  | Except.error _ => []
  | Except.ok a => [a]

/-- Embedding of the write-back phase of `main` (lines 286-292): write each
requested output file from the returned `files` dictionary, then the
returned plot entries. -/
def mainWriteBack (lfs : LocalFS) (m : MainArgs) (results : RunResult) :
    LocalFS :=
  let fs1 := _write_optional_file lfs m.output_path
    (List.lookup "mean" results.files).join
  let fs2 := _write_optional_file fs1 m.per_res_output
    (List.lookup "per_res" results.files).join
  let fs3 := _write_optional_file fs2 m.per_segment_output
    (List.lookup "per_segment" results.files).join
  _write_plots fs3 m.plot_dir results.plots

/-- A property stating that `pat` occurs contiguously inside `s`. -/
def containsSubstr (s pat : String) : Prop :=
  ∃ pre post, s = pre ++ pat ++ post

/-- A concrete argument record used to instantiate theorems in witnesses. -/
def sampleArgs : RunArgs where
  fasta_bytes := [1, 2, 3]
  fasta_name := "protein.fasta"
  more_thresholds := true
  portion_size := 500
  segment_size := 41
  window_size_predictions := 81
  curve_smoothening := false
  include_plots := true
  mean_output_name := some "mean.tsv"
  per_res_output_name := none
  per_segment_output_name := none

/-- A concrete launcher-argument record used in witnesses. -/
def sampleMain : MainArgs :=
  { fasta_path := "/home/user/protein.fasta"
    output_path := some "/tmp/out/mean.tsv"
    plot_dir := some "/tmp/out/plots" }

/-- A concrete local file system holding exactly the sample input file. -/
def sampleFS : FileMap :=
  fun p => if p = "/home/user/protein.fasta" then some [1, 2, 3] else none

/-- A concrete empty local file system used in witnesses. -/
def emptyLFS : LocalFS :=
  { files := fun _ => none, dirs := [] }

/-- C2 fails as stated: the value `"a10g"` is not in the set
{A10G, A100, H100, L4}, yet the resolver maps it to the A10G class rather
than to "no GPU", because `_gpu_from_env` uppercases the environment value
before comparing it against the four known names. -/
theorem gpu_from_env_lowercase_value_counterexample :
    gpu_from_env (some "a10g") = some GpuType.A10G ∧
      ¬ ("a10g" ∈ (["A10G", "A100", "H100", "L4"] : List String)) := by
  constructor
  · decide
  · decide

/-- C2 (amended): resolution goes through the uppercased environment value:
a `GPU` value whose uppercasing is not one of A10G, A100, H100, L4 (in
particular an unset or empty variable) resolves to no GPU, and a value whose
uppercasing is one of the four names resolves to the corresponding class. -/
theorem gpu_from_env_resolution (gpuEnv : Option String) :
    ((strUpper (gpuEnv.getD "") ∉ (["A10G", "A100", "H100", "L4"] : List String)) →
      gpu_from_env gpuEnv = none) ∧
    (strUpper (gpuEnv.getD "") = "A10G" → gpu_from_env gpuEnv = some GpuType.A10G) ∧
    (strUpper (gpuEnv.getD "") = "A100" → gpu_from_env gpuEnv = some GpuType.A100) ∧
    (strUpper (gpuEnv.getD "") = "H100" → gpu_from_env gpuEnv = some GpuType.H100) ∧
    (strUpper (gpuEnv.getD "") = "L4" → gpu_from_env gpuEnv = some GpuType.L4) := by
  refine ⟨?_, ?_, ?_, ?_, ?_⟩ <;> intro h
  · simp only [List.mem_cons, List.not_mem_nil, or_false, not_or] at h
    obtain ⟨h1, h2, h3, h4⟩ := h
    simp [gpu_from_env, h1, h2, h3, h4]
  all_goals simp [gpu_from_env, h]

/-- Witness for the amended C2 at the concrete unknown value `"T4"`. -/
theorem gpu_from_env_resolution_witness :
    (strUpper ((some "T4" : Option String).getD "") ∉
        (["A10G", "A100", "H100", "L4"] : List String)) ∧
      gpu_from_env (some "T4") = none :=
  ⟨by decide, (gpu_from_env_resolution (some "T4")).1 (by decide)⟩

/-- C1: a nonzero subprocess exit code makes the worker raise a fatal error
whose message contains the exit code and the full captured stdout and
stderr; a zero exit code never raises it. -/
theorem run_temstapro_error_iff_nonzero (completed : CompletedProcess)
    (fs : FileMap) (plotTree : Option (List (String × FsEntry))) (a : RunArgs) :
    (completed.returncode ≠ 0 →
      run_temstapro completed fs plotTree a = Except.error (errorMessage completed) ∧
      containsSubstr (errorMessage completed) (toString completed.returncode) ∧
      containsSubstr (errorMessage completed) completed.stdout ∧
      containsSubstr (errorMessage completed) completed.stderr) ∧
    (completed.returncode = 0 →
      ∃ r, run_temstapro completed fs plotTree a = Except.ok r) := by
  constructor
  · intro h
    refine ⟨by simp [run_temstapro, h], ?_, ?_, ?_⟩
    · exact ⟨"TemStaPro execution failed with return code ",
        "\nSTDOUT:\n" ++ completed.stdout ++ "\nSTDERR:\n" ++ completed.stderr,
        by simp [errorMessage, String.append_assoc]⟩
    · exact ⟨"TemStaPro execution failed with return code "
          ++ toString completed.returncode ++ "\nSTDOUT:\n",
        "\nSTDERR:\n" ++ completed.stderr,
        by simp [errorMessage, String.append_assoc]⟩
    · exact ⟨"TemStaPro execution failed with return code "
          ++ toString completed.returncode ++ "\nSTDOUT:\n" ++ completed.stdout
          ++ "\nSTDERR:\n", "",
        by simp [errorMessage, String.append_assoc, String.append_empty]⟩
  · intro h
    exact ⟨{ stdout := completed.stdout
             stderr := completed.stderr
             files := _collect_outputs fs
               [("mean", mean_output_path a),
                ("per_res", per_res_output_path a),
                ("per_segment", per_segment_output_path a)]
             plots := if a.include_plots then _gather_plot_files plotTree else [] },
      by simp [run_temstapro, h]⟩

/-- Witness for C1 at a concrete failing subprocess result. -/
theorem run_temstapro_error_iff_nonzero_witness :
    ((⟨2, "out", "err"⟩ : CompletedProcess).returncode ≠ 0) ∧
      run_temstapro ⟨2, "out", "err"⟩ (fun _ => none) none sampleArgs
        = Except.error (errorMessage ⟨2, "out", "err"⟩) :=
  ⟨by decide,
    ((run_temstapro_error_iff_nonzero ⟨2, "out", "err"⟩ (fun _ => none) none
      sampleArgs).1 (by decide)).1⟩

/-- C3: when the local input file exists, the launcher forwards its bytes
byte-for-byte, its base name, and every scalar option unchanged to the
remote worker. -/
theorem main_forwards_input_unchanged (fs : FileMap) (m : MainArgs)
    (content : Bytes) (h : fs m.fasta_path = some content) :
    ∃ a, mainCall fs m = Except.ok a ∧
      a.fasta_bytes = content ∧
      a.fasta_name = pathName m.fasta_path ∧
      a.more_thresholds = m.more_thresholds ∧
      a.portion_size = m.portion_size ∧
      a.segment_size = m.segment_size ∧
      a.window_size_predictions = m.window_size_predictions ∧
      a.curve_smoothening = m.curve_smoothening :=
  ⟨remoteArgs m content, by simp [mainCall, h], rfl, rfl, rfl, rfl, rfl, rfl, rfl⟩

/-- Witness for C3 at a concrete file system and launcher arguments. -/
theorem main_forwards_input_unchanged_witness :
    (sampleFS sampleMain.fasta_path = some [1, 2, 3]) ∧
      ∃ a, mainCall sampleFS sampleMain = Except.ok a ∧
        a.fasta_bytes = [1, 2, 3] ∧
        a.fasta_name = pathName sampleMain.fasta_path ∧
        a.more_thresholds = sampleMain.more_thresholds ∧
        a.portion_size = sampleMain.portion_size ∧
        a.segment_size = sampleMain.segment_size ∧
        a.window_size_predictions = sampleMain.window_size_predictions ∧
        a.curve_smoothening = sampleMain.curve_smoothening :=
  ⟨by decide, main_forwards_input_unchanged sampleFS sampleMain [1, 2, 3] (by decide)⟩

/-- C8: when the input path names no existing local file, `main` raises a
descriptive error naming that path and performs no remote call; the remote
call happens exactly when validation passes. -/
theorem main_fails_fast_without_input (fs : FileMap) (m : MainArgs) :
    (fs m.fasta_path = none →
      mainCall fs m = Except.error ("FASTA file not found: " ++ m.fasta_path) ∧
      containsSubstr ("FASTA file not found: " ++ m.fasta_path) m.fasta_path ∧
      mainRemoteCalls fs m = []) ∧
    (∀ content, fs m.fasta_path = some content →
      mainRemoteCalls fs m = [remoteArgs m content]) := by
  constructor
  · intro h
    refine ⟨by simp [mainCall, h], ⟨"FASTA file not found: ", "", ?_⟩,
      by simp [mainRemoteCalls, mainCall, h]⟩
    rw [String.append_empty]
  · intro content h
    simp [mainRemoteCalls, mainCall, h]

/-- Witness for C8 on an empty file system. -/
theorem main_fails_fast_without_input_witness :
    ((fun _ => none : FileMap) sampleMain.fasta_path = none) ∧
      mainCall (fun _ => none) sampleMain
          = Except.error ("FASTA file not found: " ++ sampleMain.fasta_path) ∧
        containsSubstr ("FASTA file not found: " ++ sampleMain.fasta_path)
          sampleMain.fasta_path ∧
        mainRemoteCalls (fun _ => none) sampleMain = [] :=
  ⟨rfl, (main_fails_fast_without_input (fun _ => none) sampleMain).1 rfl⟩

/-- C6: with no requested local path (the argument is `None`, or the empty
string, both falsy in the script), neither write helper changes the local
file system at all, whatever payload the remote worker returned. -/
theorem no_write_without_requested_path :
    (∀ (lfs : LocalFS) (payload : Option Bytes),
      _write_optional_file lfs none payload = lfs ∧
      _write_optional_file lfs (some "") payload = lfs) ∧
    (∀ (lfs : LocalFS) (plots : List (String × Bytes)),
      _write_plots lfs none plots = lfs ∧
      _write_plots lfs (some "") plots = lfs) := by
  constructor
  · intro lfs payload
    cases payload <;> exact ⟨rfl, rfl⟩
  · intro lfs plots
    exact ⟨rfl, rfl⟩

/-- C7: on a zero exit code the worker returns (rather than raising), and
its files mapping sends each identifier to the contents of its assigned
file when that file exists, and to an absent value when no path was
assigned or the tool did not produce the file. -/
theorem outputs_collected_or_reported_absent (completed : CompletedProcess)
    (fs : FileMap) (plotTree : Option (List (String × FsEntry))) (a : RunArgs)
    (h : completed.returncode = 0) :
    ∃ r, run_temstapro completed fs plotTree a = Except.ok r ∧
      List.lookup "mean" r.files = some ((mean_output_path a).bind fs) ∧
      List.lookup "per_res" r.files = some ((per_res_output_path a).bind fs) ∧
      List.lookup "per_segment" r.files = some ((per_segment_output_path a).bind fs) := by
  have hrun : run_temstapro completed fs plotTree a = Except.ok
      { stdout := completed.stdout
        stderr := completed.stderr
        files := _collect_outputs fs
          [("mean", mean_output_path a),
           ("per_res", per_res_output_path a),
           ("per_segment", per_segment_output_path a)]
        plots := if a.include_plots then _gather_plot_files plotTree else [] } := by
    simp [run_temstapro, h]
  refine ⟨_, hrun, ?_, ?_, ?_⟩
  · cases hm : mean_output_path a <;>
      simp [_collect_outputs, List.lookup, hm]
  · cases hm : per_res_output_path a <;>
      cases hm2 : mean_output_path a <;>
        simp [_collect_outputs, List.lookup, hm, hm2]
  · cases hm : per_segment_output_path a <;>
      cases hm2 : mean_output_path a <;>
        cases hm3 : per_res_output_path a <;>
          simp [_collect_outputs, List.lookup, hm, hm2, hm3]

/-- Witness for C7: a successful run where the mean output file exists but
the other two were not requested. -/
theorem outputs_collected_or_reported_absent_witness :
    ((⟨0, "out", "err"⟩ : CompletedProcess).returncode = 0) ∧
      ∃ r, run_temstapro ⟨0, "out", "err"⟩
            (fun p => if p = "/tmp/temstapro/outputs/mean.tsv" then some [7] else none)
            none sampleArgs = Except.ok r ∧
        List.lookup "mean" r.files
            = some ((mean_output_path sampleArgs).bind
              (fun p => if p = "/tmp/temstapro/outputs/mean.tsv" then some [7] else none)) ∧
        List.lookup "per_res" r.files
            = some ((per_res_output_path sampleArgs).bind
              (fun p => if p = "/tmp/temstapro/outputs/mean.tsv" then some [7] else none)) ∧
        List.lookup "per_segment" r.files
            = some ((per_segment_output_path sampleArgs).bind
              (fun p => if p = "/tmp/temstapro/outputs/mean.tsv" then some [7] else none)) :=
  ⟨rfl, outputs_collected_or_reported_absent ⟨0, "out", "err"⟩
    (fun p => if p = "/tmp/temstapro/outputs/mean.tsv" then some [7] else none)
    none sampleArgs rfl⟩

/-- The head of a directory chain is the directory itself. -/
theorem dirChain_self_mem (k : Nat) (d : String) : d ∈ dirChain k d := by
  cases k <;> simp [dirChain]

/-- `mkdirParents` registers the directory it was asked to create. -/
theorem mkdirParents_self_mem (fs : LocalFS) (d : String) :
    d ∈ (mkdirParents fs d).dirs := by
  simp only [mkdirParents, List.mem_append]
  exact Or.inl (dirChain_self_mem _ d)

/-- `mkdirParents` only adds directories, it never removes any. -/
theorem mkdirParents_dirs_mono (fs : LocalFS) (d x : String) (h : x ∈ fs.dirs) :
    x ∈ (mkdirParents fs d).dirs := by
  simp only [mkdirParents, List.mem_append]
  exact Or.inr h

/-- Reading back the path just written yields the written contents. -/
theorem writeFile_files_self (fs : LocalFS) (p : String) (content : Bytes) :
    (writeFile fs p content).files p = some content := by
  simp [writeFile]

/-- Writing one path leaves every other path unchanged. -/
theorem writeFile_files_ne (fs : LocalFS) (p : String) (content : Bytes)
    (q : String) (h : q ≠ p) :
    (writeFile fs p content).files q = fs.files q := by
  simp [writeFile, h]

/-- `writeFile` does not change the directory set. -/
theorem writeFile_dirs (fs : LocalFS) (p : String) (content : Bytes) :
    (writeFile fs p content).dirs = fs.dirs := rfl

/-- `mkdirParents` does not change any file contents. -/
theorem mkdirParents_files (fs : LocalFS) (d : String) :
    (mkdirParents fs d).files = fs.files := rfl

/-- Joining distinct relative components onto the same base gives distinct
paths. -/
theorem joinPath_right_injective (d r1 r2 : String)
    (h : joinPath d r1 = joinPath d r2) : r1 = r2 := by
  obtain ⟨l1⟩ := r1
  obtain ⟨l2⟩ := r2
  unfold joinPath at h
  have h2 := congrArg String.data h
  simp only [String.data_append] at h2
  exact congrArg String.mk (List.append_cancel_left h2)

/-- Paths not named by any plot entry are untouched by the plot write
loop. -/
theorem plotFold_files_untouched (d : String) (plots : List (String × Bytes))
    (acc : LocalFS) (q : String) (h : ∀ rb ∈ plots, joinPath d rb.1 ≠ q) :
    (plots.foldl (plotWriteStep d) acc).files q = acc.files q := by
  induction plots generalizing acc with
  | nil => rfl
  | cons rb rest ih =>
    rw [List.foldl_cons, ih _ (fun rb' hrb' => h rb' (List.mem_cons_of_mem _ hrb'))]
    exact writeFile_files_ne _ _ _ _ (Ne.symm (h rb (List.mem_cons_self _ _)))

/-- The plot write loop only grows the directory set. -/
theorem plotFold_dirs_mono (d : String) (plots : List (String × Bytes))
    (acc : LocalFS) (x : String) (h : x ∈ acc.dirs) :
    x ∈ (plots.foldl (plotWriteStep d) acc).dirs := by
  induction plots generalizing acc with
  | nil => exact h
  | cons rb rest ih =>
    rw [List.foldl_cons]
    exact ih _ (mkdirParents_dirs_mono _ _ _ h)

/-- Every plot entry ends up written at its joined path by the plot write
loop, with its parent directory created, provided relative paths do not
repeat. -/
theorem plotFold_writes (d : String) (plots : List (String × Bytes))
    (acc : LocalFS) (rel : String) (content : Bytes)
    (hmem : (rel, content) ∈ plots) (hnd : (plots.map Prod.fst).Nodup) :
    (plots.foldl (plotWriteStep d) acc).files (joinPath d rel) = some content ∧
      parentPath (joinPath d rel) ∈ (plots.foldl (plotWriteStep d) acc).dirs := by
  induction plots generalizing acc with
  | nil => cases hmem
  | cons rb rest ih =>
    rw [List.map_cons, List.nodup_cons] at hnd
    rw [List.foldl_cons]
    rcases List.mem_cons.mp hmem with heq | hrest
    · subst heq
      constructor
      · rw [plotFold_files_untouched]
        · exact writeFile_files_self _ _ _
        · intro rb' hrb' hq
          have hrel : rb'.1 = rel := joinPath_right_injective d _ _ hq
          have hmm : rb'.1 ∈ rest.map Prod.fst := List.mem_map_of_mem Prod.fst hrb'
          rw [hrel] at hmm
          exact hnd.1 hmm
      · exact plotFold_dirs_mono _ _ _ _ (mkdirParents_self_mem _ _)
    · exact ih _ hrest hnd.2

/-- C4: plot discovery returns exactly one pair for every regular-file
entry under the plot directory (a permutation of the tree's file entries,
each keyed by its relative path), in sorted order; a missing plot
directory yields the empty list. -/
theorem gather_plot_files_complete_and_sorted :
    (_gather_plot_files none = []) ∧
    (∀ entries : List (String × FsEntry),
      ((_gather_plot_files (some entries)).Perm
        (entries.filterMap (fun e =>
          match e.2 with
          | FsEntry.file content => some (e.1, content)
          | FsEntry.dir => none))) ∧
      ((_gather_plot_files (some entries)).Pairwise
        (fun x y => x.1 ≤ y.1))) := by
  refine ⟨rfl, fun entries => ⟨?_, ?_⟩⟩
  · exact List.Perm.filterMap _ (List.mergeSort_perm entries _)
  · have hs := @List.sorted_mergeSort (String × FsEntry)
      (fun x y => decide (x.1 ≤ y.1))
      (fun a b c hab hbc => by
        simp only [decide_eq_true_eq] at hab hbc ⊢
        exact le_trans hab hbc)
      (fun a b => by
        rcases le_total a.1 b.1 with h | h <;> simp [h])
      entries
    refine List.Pairwise.filterMap _ ?_ hs
    rintro ⟨p, e⟩ ⟨p', e'⟩ hr b hb b' hb'
    cases e <;> cases e' <;> dsimp at hb hb' hr <;>
      first
        | exact absurd hb (Option.not_mem_none _)
        | exact absurd hb' (Option.not_mem_none _)
        | (rw [Option.mem_some_iff] at hb hb'
           subst hb
           subst hb'
           simpa using hr)

/-- C5: a requested output with returned contents is written at exactly the
requested local path with its parent directory created, and every returned
plot entry is written under the requested plot directory at its relative
path, again with parents created. -/
theorem launcher_writes_returned_bytes :
    (∀ (lfs : LocalFS) (p : String) (content : Bytes), p.isEmpty = false →
      (_write_optional_file lfs (some p) (some content)).files p = some content ∧
      parentPath p ∈ (_write_optional_file lfs (some p) (some content)).dirs) ∧
    (∀ (lfs : LocalFS) (d : String) (plots : List (String × Bytes))
        (rel : String) (content : Bytes), d.isEmpty = false →
      (plots.map Prod.fst).Nodup → (rel, content) ∈ plots →
      (_write_plots lfs (some d) plots).files (joinPath d rel) = some content ∧
      parentPath (joinPath d rel) ∈ (_write_plots lfs (some d) plots).dirs) := by
  constructor
  · intro lfs p content hp
    simp only [_write_optional_file, hp, Bool.false_eq_true, if_false]
    exact ⟨writeFile_files_self _ _ _, mkdirParents_self_mem _ _⟩
  · intro lfs d plots rel content hd hnd hmem
    simp only [_write_plots, hd, Bool.false_eq_true, if_false]
    exact plotFold_writes d plots _ rel content hmem hnd

/-- Witness for C5: one output file and one nested plot entry written on an
empty local file system. -/
theorem launcher_writes_returned_bytes_witness :
    (("/tmp/out/mean.tsv" : String).isEmpty = false ∧
      (_write_optional_file emptyLFS (some "/tmp/out/mean.tsv")
          (some [7, 8])).files "/tmp/out/mean.tsv" = some [7, 8] ∧
      parentPath "/tmp/out/mean.tsv" ∈
        (_write_optional_file emptyLFS (some "/tmp/out/mean.tsv")
          (some [7, 8])).dirs) ∧
    (("/tmp/out/plots" : String).isEmpty = false ∧
      ((([("a.png", [1]), ("sub/b.png", [2])] : List (String × Bytes)).map
        Prod.fst).Nodup) ∧
      (_write_plots emptyLFS (some "/tmp/out/plots")
          [("a.png", [1]), ("sub/b.png", [2])]).files
          (joinPath "/tmp/out/plots" "sub/b.png") = some [2] ∧
      parentPath (joinPath "/tmp/out/plots" "sub/b.png") ∈
        (_write_plots emptyLFS (some "/tmp/out/plots")
          [("a.png", [1]), ("sub/b.png", [2])]).dirs) := by
  constructor
  · refine ⟨rfl, ?_⟩
    exact launcher_writes_returned_bytes.1 emptyLFS "/tmp/out/mean.tsv" [7, 8] rfl
  · refine ⟨rfl, by decide, ?_⟩
    exact launcher_writes_returned_bytes.2 emptyLFS "/tmp/out/plots"
      [("a.png", [1]), ("sub/b.png", [2])] "sub/b.png" [2] rfl (by decide)
      (by decide)

/-- C10: the launcher forwards only the base name (final component) of each
requested local output path, so the remote worker assigns every output file
a path directly inside its fixed outputs directory, whatever directory
components the local path mentions; the plot request is forwarded only as
the boolean `include_plots`. -/
theorem launcher_forwards_basename_only (fs : FileMap) (m : MainArgs)
    (a : RunArgs) (h : mainCall fs m = Except.ok a) :
    a.mean_output_name = optBaseName m.output_path ∧
    a.per_res_output_name = optBaseName m.per_res_output ∧
    a.per_segment_output_name = optBaseName m.per_segment_output ∧
    a.include_plots = strOptTruthy m.plot_dir ∧
    (∀ p, m.output_path = some p → p.isEmpty = false →
      (pathName p).isEmpty = false →
      a.mean_output_name = some (pathName p) ∧
      mean_output_path a = some (joinPath outputs_path (pathName p))) ∧
    (∀ p, m.per_res_output = some p → p.isEmpty = false →
      (pathName p).isEmpty = false →
      a.per_res_output_name = some (pathName p) ∧
      per_res_output_path a = some (joinPath outputs_path (pathName p))) ∧
    (∀ p, m.per_segment_output = some p → p.isEmpty = false →
      (pathName p).isEmpty = false →
      a.per_segment_output_name = some (pathName p) ∧
      per_segment_output_path a = some (joinPath outputs_path (pathName p))) := by
  have ha : a = remoteArgs m ((fs m.fasta_path).getD []) := by
    unfold mainCall at h
    cases hfs : fs m.fasta_path <;> rw [hfs] at h
    · cases h
    · injection h with h2
      rw [← h2]
      rfl
  subst ha
  refine ⟨rfl, rfl, rfl, rfl, ?_, ?_, ?_⟩ <;>
    · intro p hp hpe hpn
      constructor
      · simp [remoteArgs, optBaseName, hp, hpe]
      · simp [remoteArgs, mean_output_path, per_res_output_path,
          per_segment_output_path, optBaseName, hp, hpe, hpn]

/-- Witness for C10 at concrete launcher arguments whose output path has
directory components. -/
theorem launcher_forwards_basename_only_witness :
    (mainCall sampleFS sampleMain = Except.ok (remoteArgs sampleMain [1, 2, 3])) ∧
      (remoteArgs sampleMain [1, 2, 3]).mean_output_name
          = optBaseName sampleMain.output_path ∧
      ((remoteArgs sampleMain [1, 2, 3]).mean_output_name
          = some (pathName "/tmp/out/mean.tsv") ∧
        mean_output_path (remoteArgs sampleMain [1, 2, 3])
          = some (joinPath outputs_path (pathName "/tmp/out/mean.tsv"))) :=
  ⟨rfl,
    (launcher_forwards_basename_only sampleFS sampleMain
      (remoteArgs sampleMain [1, 2, 3]) rfl).1,
    (launcher_forwards_basename_only sampleFS sampleMain
      (remoteArgs sampleMain [1, 2, 3]) rfl).2.2.2.2.1
      "/tmp/out/mean.tsv" rfl rfl rfl⟩


/-- Characters `Nat.digitChar` yields for values below ten are decimal
digits. -/
theorem digitChar_isDigit (m : Nat) (h : m < 10) : (Nat.digitChar m).isDigit = true := by
  interval_cases m <;> decide

/-- Base-ten `Nat.toDigitsCore` only ever emits decimal digits (when its
accumulator already holds only digits). -/
theorem toDigitsCore_digits (f : Nat) : ∀ (n : Nat) (ds : List Char),
    (∀ c ∈ ds, c.isDigit = true) →
    ∀ c ∈ Nat.toDigitsCore 10 f n ds, c.isDigit = true := by
  induction f with
  | zero =>
    intro n ds hds c hc
    exact hds c hc
  | succ f ih =>
    intro n ds hds c hc
    rw [Nat.toDigitsCore] at hc
    by_cases h0 : n / 10 = 0
    · rw [if_pos h0] at hc
      rcases List.mem_cons.mp hc with h | h
      · exact h ▸ digitChar_isDigit _ (Nat.mod_lt _ (by decide))
      · exact hds c h
    · rw [if_neg h0] at hc
      refine ih _ _ ?_ c hc
      intro c2 hc2
      rcases List.mem_cons.mp hc2 with h | h
      · exact h ▸ digitChar_isDigit _ (Nat.mod_lt _ (by decide))
      · exact hds c2 h

/-- Every character of the decimal rendering of a natural number is a
digit. -/
theorem natRepr_digits (n : Nat) : ∀ c ∈ (Nat.repr n).data, c.isDigit = true := by
  intro c hc
  have hd : (Nat.repr n).data = Nat.toDigitsCore 10 (n + 1) n [] := rfl
  rw [hd] at hc
  exact toDigitsCore_digits (n + 1) n [] (by simp) c hc

/-- Every character of the decimal rendering of an integer is a digit or
the minus sign. -/
theorem intRepr_chars (i : Int) :
    ∀ c ∈ (toString i).data, c.isDigit = true ∨ c = '-' := by
  intro c hc
  cases i with
  | ofNat m => exact Or.inl (natRepr_digits m c hc)
  | negSucc m =>
    have hd : (toString (Int.negSucc m)).data = '-' :: (Nat.repr (m + 1)).data := rfl
    rw [hd] at hc
    rcases List.mem_cons.mp hc with h | h
    · exact Or.inr h
    · exact Or.inl (natRepr_digits _ c h)

/-- A string containing the letter e is never the decimal rendering of an
integer; every flag the script may emit contains an e. -/
theorem ne_intRepr_of_mem_e (f : String) (he : 'e' ∈ f.data) (i : Int) :
    f ≠ toString i := by
  intro h
  rw [h] at he
  rcases intRepr_chars i 'e' he with hd | hd
  · exact absurd hd (by decide)
  · exact absurd hd (by decide)

/-- Strings with distinct first characters are distinct. -/
theorem ne_of_head_ne (s t : String) (c1 c2 : Char)
    (h1 : s.data.head? = some c1) (h2 : t.data.head? = some c2)
    (hne : c1 ≠ c2) : s ≠ t := by
  intro h
  rw [h, h2] at h1
  exact hne (Option.some_inj.mp h1).symm

/-- A joined path starts with the first character of its base. -/
theorem joinPath_head (a b : String) (c : Char) (h : a.data.head? = some c) :
    (joinPath a b).data.head? = some c := by
  unfold joinPath
  rw [String.data_append, String.data_append, List.head?_append, List.head?_append, h]
  rfl

/-- Any assigned mean-output path starts with a slash. -/
theorem mean_output_path_head (a : RunArgs) (p : String)
    (h : mean_output_path a = some p) : p.data.head? = some '/' := by
  cases hm : a.mean_output_name with
  | none =>
    simp only [mean_output_path, hm] at h
    cases h
  | some name =>
    simp only [mean_output_path, hm] at h
    by_cases hn : name.isEmpty
    · rw [if_pos hn] at h
      cases h
    · rw [if_neg hn] at h
      rw [← Option.some_inj.mp h]
      exact joinPath_head outputs_path name '/' rfl

/-- Any assigned per-residue output path starts with a slash. -/
theorem per_res_output_path_head (a : RunArgs) (p : String)
    (h : per_res_output_path a = some p) : p.data.head? = some '/' := by
  cases hm : a.per_res_output_name with
  | none =>
    simp only [per_res_output_path, hm] at h
    cases h
  | some name =>
    simp only [per_res_output_path, hm] at h
    by_cases hn : name.isEmpty
    · rw [if_pos hn] at h
      cases h
    · rw [if_neg hn] at h
      rw [← Option.some_inj.mp h]
      exact joinPath_head outputs_path name '/' rfl

/-- Any assigned per-segment output path starts with a slash. -/
theorem per_segment_output_path_head (a : RunArgs) (p : String)
    (h : per_segment_output_path a = some p) : p.data.head? = some '/' := by
  cases hm : a.per_segment_output_name with
  | none =>
    simp only [per_segment_output_path, hm] at h
    cases h
  | some name =>
    simp only [per_segment_output_path, hm] at h
    by_cases hn : name.isEmpty
    · rw [if_pos hn] at h
      cases h
    · rw [if_neg hn] at h
      rw [← Option.some_inj.mp h]
      exact joinPath_head outputs_path name '/' rfl

/-- A mean-output path is only assigned for a truthy name. -/
theorem mean_output_path_truthy (a : RunArgs) (p : String)
    (h : mean_output_path a = some p) :
    strOptTruthy a.mean_output_name = true := by
  cases hm : a.mean_output_name with
  | none =>
    simp only [mean_output_path, hm] at h
    cases h
  | some name =>
    simp only [mean_output_path, hm] at h
    by_cases hn : name.isEmpty
    · rw [if_pos hn] at h
      cases h
    · simp [strOptTruthy, hn]

/-- A per-residue output path is only assigned for a truthy name. -/
theorem per_res_output_path_truthy (a : RunArgs) (p : String)
    (h : per_res_output_path a = some p) :
    strOptTruthy a.per_res_output_name = true := by
  cases hm : a.per_res_output_name with
  | none =>
    simp only [per_res_output_path, hm] at h
    cases h
  | some name =>
    simp only [per_res_output_path, hm] at h
    by_cases hn : name.isEmpty
    · rw [if_pos hn] at h
      cases h
    · simp [strOptTruthy, hn]

/-- A per-segment output path is only assigned for a truthy name. -/
theorem per_segment_output_path_truthy (a : RunArgs) (p : String)
    (h : per_segment_output_path a = some p) :
    strOptTruthy a.per_segment_output_name = true := by
  cases hm : a.per_segment_output_name with
  | none =>
    simp only [per_segment_output_path, hm] at h
    cases h
  | some name =>
    simp only [per_segment_output_path, hm] at h
    by_cases hn : name.isEmpty
    · rw [if_pos hn] at h
      cases h
    · simp [strOptTruthy, hn]

/-- A truthy mean-output name gets a path assigned. -/
theorem mean_output_path_some_of_truthy (a : RunArgs)
    (h : strOptTruthy a.mean_output_name = true) :
    ∃ p, mean_output_path a = some p := by
  cases hm : a.mean_output_name with
  | none =>
    rw [hm] at h
    cases h
  | some name =>
    rw [hm] at h
    have hn : name.isEmpty = false := by simpa [strOptTruthy] using h
    exact ⟨joinPath outputs_path name, by simp [mean_output_path, hm, hn]⟩

/-- A truthy per-residue output name gets a path assigned. -/
theorem per_res_output_path_some_of_truthy (a : RunArgs)
    (h : strOptTruthy a.per_res_output_name = true) :
    ∃ p, per_res_output_path a = some p := by
  cases hm : a.per_res_output_name with
  | none =>
    rw [hm] at h
    cases h
  | some name =>
    rw [hm] at h
    have hn : name.isEmpty = false := by simpa [strOptTruthy] using h
    exact ⟨joinPath outputs_path name, by simp [per_res_output_path, hm, hn]⟩

/-- A truthy per-segment output name gets a path assigned. -/
theorem per_segment_output_path_some_of_truthy (a : RunArgs)
    (h : strOptTruthy a.per_segment_output_name = true) :
    ∃ p, per_segment_output_path a = some p := by
  cases hm : a.per_segment_output_name with
  | none =>
    rw [hm] at h
    cases h
  | some name =>
    rw [hm] at h
    have hn : name.isEmpty = false := by simpa [strOptTruthy] using h
    exact ⟨joinPath outputs_path name, by simp [per_segment_output_path, hm, hn]⟩

/-- Complete case analysis for membership in the built command line: a word
is in the fixed head or in one of the condition-guarded segments. -/
theorem mem_cmd_cases (a : RunArgs) (x : String) (hx : x ∈ cmd a) :
    x ∈ cmdBase a ∨
    (x = "--more-thresholds" ∧ a.more_thresholds = true) ∨
    (x = "--curve-smoothening" ∧ a.curve_smoothening = true) ∨
    (∃ p, mean_output_path a = some p ∧ (x = "--mean-output" ∨ x = p)) ∨
    (∃ p, per_res_output_path a = some p ∧ (x = "--per-res-output" ∨ x = p)) ∨
    (∃ p, per_segment_output_path a = some p ∧ (x = "--per-segment-output" ∨ x = p)) ∨
    ((x = "--per-residue-plot-dir" ∨ x = plots_path) ∧ a.include_plots = true) := by
  unfold cmd at hx
  simp only [List.mem_append] at hx
  rcases hx with ((((((hx | hx) | hx) | hx) | hx) | hx) | hx)
  · exact Or.inl hx
  · cases hmt : a.more_thresholds <;> simp [moreThresholdsSeg, hmt] at hx
    exact Or.inr (Or.inl ⟨hx, rfl⟩)
  · cases hcs : a.curve_smoothening <;> simp [curveSmootheningSeg, hcs] at hx
    exact Or.inr (Or.inr (Or.inl ⟨hx, rfl⟩))
  · cases hm : mean_output_path a <;> simp [meanOutputSeg, hm] at hx
    exact Or.inr (Or.inr (Or.inr (Or.inl ⟨_, rfl, hx⟩)))
  · cases hm : per_res_output_path a <;> simp [perResOutputSeg, hm] at hx
    exact Or.inr (Or.inr (Or.inr (Or.inr (Or.inl ⟨_, rfl, hx⟩))))
  · cases hm : per_segment_output_path a <;> simp [perSegmentOutputSeg, hm] at hx
    exact Or.inr (Or.inr (Or.inr (Or.inr (Or.inr (Or.inl ⟨_, rfl, hx⟩)))))
  · cases hpl : a.include_plots <;> simp [plotDirSeg, hpl] at hx
    exact Or.inr (Or.inr (Or.inr (Or.inr (Or.inr (Or.inr ⟨hx, rfl⟩)))))

/-- None of the optional flags can collide with a word of the fixed command
head: the head's words are either known literals, decimal numbers, or
slash-leading paths. -/
theorem flag_not_in_cmdBase (a : RunArgs) (f : String)
    (hhead : f.data.head? = some '-')
    (he : 'e' ∈ f.data)
    (h1 : f ≠ "-f") (h2 : f ≠ "-d") (h3 : f ≠ "-t") (h4 : f ≠ "-e")
    (h5 : f ≠ "--portion-size") (h6 : f ≠ "--segment-size")
    (h7 : f ≠ "--window-size-predictions") :
    f ∉ cmdBase a := by
  intro hf
  simp only [cmdBase, List.mem_cons, List.not_mem_nil, or_false] at hf
  rcases hf with h | h | h | h | h | h | h | h | h | h | h | h | h | h | h | h
  · exact ne_of_head_ne f "python" '-' 'p' hhead rfl (by decide) h
  · exact ne_of_head_ne f (joinPath REMOTE_REPO_PATH "temstapro") '-' '/' hhead
      (joinPath_head REMOTE_REPO_PATH "temstapro" '/' rfl) (by decide) h
  · exact h1 h
  · exact ne_of_head_ne f (input_path a) '-' '/' hhead
      (joinPath_head REMOTE_FASTA_DIR a.fasta_name '/' rfl) (by decide) h
  · exact h2 h
  · exact ne_of_head_ne f PROTTRANS_DIR '-' '/' hhead rfl (by decide) h
  · exact h3 h
  · exact ne_of_head_ne f REMOTE_REPO_PATH '-' '/' hhead rfl (by decide) h
  · exact h4 h
  · exact ne_of_head_ne f EMBEDDINGS_CACHE_ROOT '-' '/' hhead rfl (by decide) h
  · exact h5 h
  · exact ne_intRepr_of_mem_e f he _ h
  · exact h6 h
  · exact ne_intRepr_of_mem_e f he _ h
  · exact h7 h
  · exact ne_intRepr_of_mem_e f he _ h

/-- C9: the command line always carries the flag-value pairs for the input
file, model directory, repo directory, embeddings cache, portion size,
segment size and prediction window size; `--more-thresholds` appears iff
that flag is set, `--curve-smoothening` iff that flag is set, each of
`--mean-output`, `--per-res-output`, `--per-segment-output` iff the
corresponding (truthy) output name was given, and `--per-residue-plot-dir`
iff plots were requested. -/
theorem cmd_flags (a : RunArgs) :
    (["-f", input_path a] <:+: cmd a) ∧
    (["-d", PROTTRANS_DIR] <:+: cmd a) ∧
    (["-t", REMOTE_REPO_PATH] <:+: cmd a) ∧
    (["-e", EMBEDDINGS_CACHE_ROOT] <:+: cmd a) ∧
    (["--portion-size", toString a.portion_size] <:+: cmd a) ∧
    (["--segment-size", toString a.segment_size] <:+: cmd a) ∧
    (["--window-size-predictions", toString a.window_size_predictions] <:+: cmd a) ∧
    ("--more-thresholds" ∈ cmd a ↔ a.more_thresholds = true) ∧
    ("--curve-smoothening" ∈ cmd a ↔ a.curve_smoothening = true) ∧
    ("--mean-output" ∈ cmd a ↔ strOptTruthy a.mean_output_name = true) ∧
    ("--per-res-output" ∈ cmd a ↔ strOptTruthy a.per_res_output_name = true) ∧
    ("--per-segment-output" ∈ cmd a ↔ strOptTruthy a.per_segment_output_name = true) ∧
    ("--per-residue-plot-dir" ∈ cmd a ↔ a.include_plots = true) := by
  have hpre : cmdBase a <+: cmd a :=
    ⟨moreThresholdsSeg a ++ curveSmootheningSeg a ++ meanOutputSeg a ++
      perResOutputSeg a ++ perSegmentOutputSeg a ++ plotDirSeg a,
      by simp [cmd, List.append_assoc]⟩
  refine ⟨?_, ?_, ?_, ?_, ?_, ?_, ?_, ?_, ?_, ?_, ?_, ?_, ?_⟩
  · exact List.IsInfix.trans
      ⟨["python", joinPath REMOTE_REPO_PATH "temstapro"],
       ["-d", PROTTRANS_DIR, "-t", REMOTE_REPO_PATH, "-e", EMBEDDINGS_CACHE_ROOT,
       "--portion-size", toString a.portion_size,
       "--segment-size", toString a.segment_size,
       "--window-size-predictions", toString a.window_size_predictions], rfl⟩ hpre.isInfix
  · exact List.IsInfix.trans
      ⟨["python", joinPath REMOTE_REPO_PATH "temstapro", "-f", input_path a],
       ["-t", REMOTE_REPO_PATH, "-e", EMBEDDINGS_CACHE_ROOT,
       "--portion-size", toString a.portion_size,
       "--segment-size", toString a.segment_size,
       "--window-size-predictions", toString a.window_size_predictions], rfl⟩ hpre.isInfix
  · exact List.IsInfix.trans
      ⟨["python", joinPath REMOTE_REPO_PATH "temstapro", "-f", input_path a,
       "-d", PROTTRANS_DIR],
       ["-e", EMBEDDINGS_CACHE_ROOT,
       "--portion-size", toString a.portion_size,
       "--segment-size", toString a.segment_size,
       "--window-size-predictions", toString a.window_size_predictions], rfl⟩ hpre.isInfix
  · exact List.IsInfix.trans
      ⟨["python", joinPath REMOTE_REPO_PATH "temstapro", "-f", input_path a,
       "-d", PROTTRANS_DIR, "-t", REMOTE_REPO_PATH],
       ["--portion-size", toString a.portion_size,
       "--segment-size", toString a.segment_size,
       "--window-size-predictions", toString a.window_size_predictions], rfl⟩ hpre.isInfix
  · exact List.IsInfix.trans
      ⟨["python", joinPath REMOTE_REPO_PATH "temstapro", "-f", input_path a,
       "-d", PROTTRANS_DIR, "-t", REMOTE_REPO_PATH, "-e", EMBEDDINGS_CACHE_ROOT],
       ["--segment-size", toString a.segment_size,
       "--window-size-predictions", toString a.window_size_predictions], rfl⟩ hpre.isInfix
  · exact List.IsInfix.trans
      ⟨["python", joinPath REMOTE_REPO_PATH "temstapro", "-f", input_path a,
       "-d", PROTTRANS_DIR, "-t", REMOTE_REPO_PATH, "-e", EMBEDDINGS_CACHE_ROOT,
       "--portion-size", toString a.portion_size],
       ["--window-size-predictions", toString a.window_size_predictions], rfl⟩ hpre.isInfix
  · exact List.IsInfix.trans
      ⟨["python", joinPath REMOTE_REPO_PATH "temstapro", "-f", input_path a,
       "-d", PROTTRANS_DIR, "-t", REMOTE_REPO_PATH, "-e", EMBEDDINGS_CACHE_ROOT,
       "--portion-size", toString a.portion_size,
       "--segment-size", toString a.segment_size],
       [], rfl⟩ hpre.isInfix
  · constructor
    · intro hmem
      rcases mem_cmd_cases a _ hmem with h | h | h | h | h | h | h
      · exact absurd h (flag_not_in_cmdBase a _ rfl (by decide) (by decide)
          (by decide) (by decide) (by decide) (by decide) (by decide) (by decide))
      · exact h.2
      · exact absurd h.1 (by decide)
      · obtain ⟨p, hp, hor⟩ := h
        rcases hor with h | h
        · exact absurd h (by decide)
        · exact absurd h (ne_of_head_ne _ p '-' '/' rfl (mean_output_path_head a p hp) (by decide))
      · obtain ⟨p, hp, hor⟩ := h
        rcases hor with h | h
        · exact absurd h (by decide)
        · exact absurd h (ne_of_head_ne _ p '-' '/' rfl (per_res_output_path_head a p hp) (by decide))
      · obtain ⟨p, hp, hor⟩ := h
        rcases hor with h | h
        · exact absurd h (by decide)
        · exact absurd h (ne_of_head_ne _ p '-' '/' rfl (per_segment_output_path_head a p hp) (by decide))
      · rcases h.1 with h | h
        · exact absurd h (by decide)
        · exact absurd h (ne_of_head_ne _ plots_path '-' '/' rfl rfl (by decide))
    · intro h
      simp [cmd, moreThresholdsSeg, h]
  · constructor
    · intro hmem
      rcases mem_cmd_cases a _ hmem with h | h | h | h | h | h | h
      · exact absurd h (flag_not_in_cmdBase a _ rfl (by decide) (by decide)
          (by decide) (by decide) (by decide) (by decide) (by decide) (by decide))
      · exact absurd h.1 (by decide)
      · exact h.2
      · obtain ⟨p, hp, hor⟩ := h
        rcases hor with h | h
        · exact absurd h (by decide)
        · exact absurd h (ne_of_head_ne _ p '-' '/' rfl (mean_output_path_head a p hp) (by decide))
      · obtain ⟨p, hp, hor⟩ := h
        rcases hor with h | h
        · exact absurd h (by decide)
        · exact absurd h (ne_of_head_ne _ p '-' '/' rfl (per_res_output_path_head a p hp) (by decide))
      · obtain ⟨p, hp, hor⟩ := h
        rcases hor with h | h
        · exact absurd h (by decide)
        · exact absurd h (ne_of_head_ne _ p '-' '/' rfl (per_segment_output_path_head a p hp) (by decide))
      · rcases h.1 with h | h
        · exact absurd h (by decide)
        · exact absurd h (ne_of_head_ne _ plots_path '-' '/' rfl rfl (by decide))
    · intro h
      simp [cmd, curveSmootheningSeg, h]
  · constructor
    · intro hmem
      rcases mem_cmd_cases a _ hmem with h | h | h | h | h | h | h
      · exact absurd h (flag_not_in_cmdBase a _ rfl (by decide) (by decide)
          (by decide) (by decide) (by decide) (by decide) (by decide) (by decide))
      · exact absurd h.1 (by decide)
      · exact absurd h.1 (by decide)
      · obtain ⟨p, hp, hor⟩ := h
        exact mean_output_path_truthy a p hp
      · obtain ⟨p, hp, hor⟩ := h
        rcases hor with h | h
        · exact absurd h (by decide)
        · exact absurd h (ne_of_head_ne _ p '-' '/' rfl (per_res_output_path_head a p hp) (by decide))
      · obtain ⟨p, hp, hor⟩ := h
        rcases hor with h | h
        · exact absurd h (by decide)
        · exact absurd h (ne_of_head_ne _ p '-' '/' rfl (per_segment_output_path_head a p hp) (by decide))
      · rcases h.1 with h | h
        · exact absurd h (by decide)
        · exact absurd h (ne_of_head_ne _ plots_path '-' '/' rfl rfl (by decide))
    · intro h
      obtain ⟨p, hp⟩ := mean_output_path_some_of_truthy a h
      simp [cmd, meanOutputSeg, hp]
  · constructor
    · intro hmem
      rcases mem_cmd_cases a _ hmem with h | h | h | h | h | h | h
      · exact absurd h (flag_not_in_cmdBase a _ rfl (by decide) (by decide)
          (by decide) (by decide) (by decide) (by decide) (by decide) (by decide))
      · exact absurd h.1 (by decide)
      · exact absurd h.1 (by decide)
      · obtain ⟨p, hp, hor⟩ := h
        rcases hor with h | h
        · exact absurd h (by decide)
        · exact absurd h (ne_of_head_ne _ p '-' '/' rfl (mean_output_path_head a p hp) (by decide))
      · obtain ⟨p, hp, hor⟩ := h
        exact per_res_output_path_truthy a p hp
      · obtain ⟨p, hp, hor⟩ := h
        rcases hor with h | h
        · exact absurd h (by decide)
        · exact absurd h (ne_of_head_ne _ p '-' '/' rfl (per_segment_output_path_head a p hp) (by decide))
      · rcases h.1 with h | h
        · exact absurd h (by decide)
        · exact absurd h (ne_of_head_ne _ plots_path '-' '/' rfl rfl (by decide))
    · intro h
      obtain ⟨p, hp⟩ := per_res_output_path_some_of_truthy a h
      simp [cmd, perResOutputSeg, hp]
  · constructor
    · intro hmem
      rcases mem_cmd_cases a _ hmem with h | h | h | h | h | h | h
      · exact absurd h (flag_not_in_cmdBase a _ rfl (by decide) (by decide)
          (by decide) (by decide) (by decide) (by decide) (by decide) (by decide))
      · exact absurd h.1 (by decide)
      · exact absurd h.1 (by decide)
      · obtain ⟨p, hp, hor⟩ := h
        rcases hor with h | h
        · exact absurd h (by decide)
        · exact absurd h (ne_of_head_ne _ p '-' '/' rfl (mean_output_path_head a p hp) (by decide))
      · obtain ⟨p, hp, hor⟩ := h
        rcases hor with h | h
        · exact absurd h (by decide)
        · exact absurd h (ne_of_head_ne _ p '-' '/' rfl (per_res_output_path_head a p hp) (by decide))
      · obtain ⟨p, hp, hor⟩ := h
        exact per_segment_output_path_truthy a p hp
      · rcases h.1 with h | h
        · exact absurd h (by decide)
        · exact absurd h (ne_of_head_ne _ plots_path '-' '/' rfl rfl (by decide))
    · intro h
      obtain ⟨p, hp⟩ := per_segment_output_path_some_of_truthy a h
      simp [cmd, perSegmentOutputSeg, hp]
  · constructor
    · intro hmem
      rcases mem_cmd_cases a _ hmem with h | h | h | h | h | h | h
      · exact absurd h (flag_not_in_cmdBase a _ rfl (by decide) (by decide)
          (by decide) (by decide) (by decide) (by decide) (by decide) (by decide))
      · exact absurd h.1 (by decide)
      · exact absurd h.1 (by decide)
      · obtain ⟨p, hp, hor⟩ := h
        rcases hor with h | h
        · exact absurd h (by decide)
        · exact absurd h (ne_of_head_ne _ p '-' '/' rfl (mean_output_path_head a p hp) (by decide))
      · obtain ⟨p, hp, hor⟩ := h
        rcases hor with h | h
        · exact absurd h (by decide)
        · exact absurd h (ne_of_head_ne _ p '-' '/' rfl (per_res_output_path_head a p hp) (by decide))
      · obtain ⟨p, hp, hor⟩ := h
        rcases hor with h | h
        · exact absurd h (by decide)
        · exact absurd h (ne_of_head_ne _ p '-' '/' rfl (per_segment_output_path_head a p hp) (by decide))
      · exact h.2
    · intro h
      simp [cmd, plotDirSeg, h]

/-- Witness for C9 at the sample arguments: the set flags are present. -/
theorem cmd_flags_witness :
    ("--more-thresholds" ∈ cmd sampleArgs) ∧ ("--mean-output" ∈ cmd sampleArgs) :=
  ⟨(cmd_flags sampleArgs).2.2.2.2.2.2.2.1.mpr rfl,
   (cmd_flags sampleArgs).2.2.2.2.2.2.2.2.2.1.mpr rfl⟩

end TemStaPro
